import Mathlib

/-!
Verification of `pytools/persistent_dict.py`: the `KeyBuilder` persistent
hashing engine and the two disk-backed dictionary disciplines
(`PersistentDict`, mutable, and `WriteOncePersistentDict`, write-once with an
in-memory LRU read cache).

The embedding is shallow:

* Python values that can be fed to `KeyBuilder` are modelled by the inductive
  `PyVal`.  The universe covers the kinds the development reasons about
  (ints, bools, strings, bytes, `None`, tuples, frozensets, frozen mappings),
  plus a value carrying a memoized digest (`_pytools_persistent_hash_digest`),
  a value exposing the `update_persistent_hash` hook, and a value of a type
  with no dispatch rule.
* A `hashlib` hash object accumulates a byte stream; its `digest()` is an
  abstract function `H : List Nat → List Nat` of the accumulated stream
  (for sha256, `H` is fixed-length and assumed collision-free where needed).
  Since `update` only concatenates, each `update_for_*` updater is modelled
  by the byte string it feeds to the hash.
* `pickle.dumps`/`pickle.loads` are abstract `dumps`/`loads` functions; the
  pickle round trip `loads (dumps v) = v` is a hypothesis where needed.
* The sqlite table `dict (key text PRIMARY KEY, value)` is a list of rows in
  rowid order.  A plain `INSERT` appends a row (error on a duplicate key,
  `sqlite3.IntegrityError`); `INSERT OR REPLACE` deletes any conflicting row
  and appends the new row, which receives a fresh (maximal) rowid, so
  `SELECT ... ORDER BY rowid` enumerates it last; `DELETE ... WHERE key=?`
  removes the matching row in place.
-/

namespace PytoolsPersistentDict

/-- The universe of Python values fed to `KeyBuilder`. -/
inductive PyVal where
  | int (n : Int)
  | bool (b : Bool)
  | str (s : String)
  | bytes (bs : List Nat)
  | noneV
  | tuple (elts : List PyVal)
  | frozenset (elts : List PyVal)
  | frozendict (entries : List (PyVal × PyVal))
  | memo (digest : List Nat)
  | hook (stream : List Nat)
  | unsupported (tname : String)

/-- Errors surfaced by the module: `NoSuchEntryError`, `ReadOnlyEntryError`,
and the `TypeError("unsupported type for persistent hash keying: ...")`
raised by `KeyBuilder.rec`, which the spec names `UnsupportedKeyType`;
it carries the name of the offending runtime type. -/
inductive PDError where
  | noSuchEntry
  | readOnlyEntry
  | unsupportedKeyType (tname : String)
  deriving DecidableEq, Repr

/-- UTF-8 encoding of one character (`str.encode("utf8")`, per code point). -/
def utf8Char (c : Char) : List Nat :=
  let n := c.toNat
  if n < 0x80 then [n]
  else if n < 0x800 then [0xC0 + n / 64, 0x80 + n % 64]
  else if n < 0x10000 then [0xE0 + n / 4096, 0x80 + (n / 64) % 64, 0x80 + n % 64]
  else [0xF0 + n / 262144, 0x80 + (n / 4096) % 64, 0x80 + (n / 64) % 64, 0x80 + n % 64]

/-- `s.encode("utf8")` as a byte list. -/
def utf8 (s : String) : List Nat := s.data.flatMap utf8Char

namespace KeyBuilder

/-- Little-endian base-256 digits of `v`, exactly `sz` bytes. -/
def toBytesLE : Nat → Nat → List Nat
  | _, 0 => []
  | v, sz + 1 => v % 256 :: toBytesLE (v / 256) sz

/-- Whether `int.to_bytes(sz, byteorder="little", signed=True)` succeeds,
i.e. `n` lies in the signed two's-complement range of `sz` bytes
(otherwise Python raises `OverflowError`). -/
def fitsSigned (n : Int) (sz : Nat) : Bool :=
  decide (-(2 ^ (8 * sz - 1) : Int) ≤ n ∧ n < 2 ^ (8 * sz - 1))

/-- `n.to_bytes(sz, byteorder="little", signed=True)`: little-endian bytes of
the two's-complement residue `n mod 2^(8*sz)`. -/
def to_bytes_signed_le (n : Int) (sz : Nat) : List Nat :=
  toBytesLE (n % (2 ^ (8 * sz) : Int)).toNat sz

/-- The `while True` loop of `KeyBuilder.update_for_int`: try `sz`, double on
`OverflowError`.  The Python loop is unbounded; here it carries fuel, and
`update_for_int_loop_spec` below shows the supplied fuel is never exhausted
(the fuel-0 fallback is unreachable). -/
def update_for_int_loop (n : Int) : Nat → Nat → List Nat
  | sz, fuel + 1 =>
      if fitsSigned n sz then to_bytes_signed_le n sz
      else update_for_int_loop n (sz * 2) fuel
  | sz, 0 => to_bytes_signed_le n sz

/-- `KeyBuilder.update_for_int`: bytes fed to the hash for an `int`,
starting at `sz = 8`. -/
def update_for_int (n : Int) : List Nat := update_for_int_loop n 8 (n.natAbs + 1)

/-- `KeyBuilder.update_for_bool`: `str(key).encode("utf8")`. -/
def update_for_bool (b : Bool) : List Nat := utf8 (if b then "True" else "False")

/-- `KeyBuilder.update_for_str`: `key.encode("utf8")`. -/
def update_for_str (s : String) : List Nat := utf8 s

/-- `KeyBuilder.update_for_bytes`: the bytes themselves. -/
def update_for_bytes (bs : List Nat) : List Nat := bs

/-- `KeyBuilder.update_for_NoneType`: the fixed sentinel `b"<None>"`. -/
def update_for_NoneType : List Nat := utf8 "<None>"

/-- Lexicographic sort of a list of byte strings. -/
def sortLex (ds : List (List Nat)) : List (List Nat) := List.insertionSort (· ≤ ·) ds

/-- Modelled from the spec: `pytools.unordered_hash` is defined in
`pytools/__init__.py`, which is not under `src/`.  The spec requires the
sub-digests of the elements of an unordered collection to be combined with a
commutative, order-insensitive combiner and suggests "sort the sub-digests
then concatenate-and-hash"; we model the bytes it contributes to the
enclosing hash as the concatenation of the lexicographically sorted
sub-digests. -/
def unordered_hash (subDigests : List (List Nat)) : List Nat :=
  (sortLex subDigests).flatten

variable (H : List Nat → List Nat)

mutual

/-- `KeyBuilder.rec(key_hash, key)` appends one digest to `key_hash`:
the memoized `_pytools_persistent_hash_digest` if the value carries one,
else the digest of a fresh inner hash filled by `update_persistent_hash`
(when the type exposes that hook) or by the matching `update_for_*` updater;
if nothing matches, `TypeError` (`UnsupportedKeyType`) is raised.
`recDigest H key` is that digest; `H` plays the role of `Hash.digest` on the
accumulated stream.  (The opportunistic memo attachment afterwards does not
affect any computed digest and is not modelled.) -/
def recDigest : PyVal → Except PDError (List Nat)
  | .memo d => .ok d
  | .hook s => .ok (H s)
  | .int n => .ok (H (update_for_int n))
  | .bool b => .ok (H (update_for_bool b))
  | .str s => .ok (H (update_for_str s))
  | .bytes bs => .ok (H (update_for_bytes bs))
  | .noneV => .ok (H update_for_NoneType)
  | .tuple l =>
      match recList l with
      | .ok ds => .ok (H ds.flatten)
      | .error e => .error e
  | .frozenset l =>
      match recList l with
      | .ok ds => .ok (H (unordered_hash (ds.map H)))
      | .error e => .error e
  | .frozendict l =>
      match recPairs l with
      | .ok subs => .ok (H (unordered_hash subs))
      | .error e => .error e
  | .unsupported tname => .error (.unsupportedKeyType tname)

/-- `KeyBuilder.update_for_tuple` recs every element into the same hash, so a
tuple's stream is the concatenation of the element digests. -/
def recList : List PyVal → Except PDError (List (List Nat))
  | [] => .ok []
  | x :: rest =>
      match recDigest x with
      | .error e => .error e
      | .ok d =>
          match recList rest with
          | .error e => .error e
          | .ok ds => .ok (d :: ds)

/-- The sub-digests `self.rec(self.new_hash(), (k, v)).digest()` computed by
`update_for_frozendict`: a fresh hash receives the digest of the pair
`(k, v)` — a 2-tuple, whose own stream is `recDigest k ++ recDigest v` — so
each sub-digest is `H (H (dk ++ dv))`. -/
def recPairs : List (PyVal × PyVal) → Except PDError (List (List Nat))
  | [] => .ok []
  | (k, v) :: rest =>
      match recDigest k with
      | .error e => .error e
      | .ok dk =>
          match recDigest v with
          | .error e => .error e
          | .ok dv =>
              match recPairs rest with
              | .error e => .error e
              | .ok ds => .ok (H (H (dk ++ dv)) :: ds)

end

end KeyBuilder

/-- Lowercase hex rendering of one byte (two hex digits). -/
def hexDigitChar (n : Nat) : Char :=
  if n < 10 then Char.ofNat (48 + n) else Char.ofNat (87 + n)

/-- Two-digit lowercase hex of a byte. -/
def hexOfByte (b : Nat) : List Char := [hexDigitChar (b / 16 % 16), hexDigitChar (b % 16)]

/-- `Hash.hexdigest()`: lowercase hex text of the digest bytes. -/
def hexOfBytes (bs : List Nat) : String := ⟨bs.flatMap hexOfByte⟩

/-- `KeyBuilder.__call__(key)`: a fresh hash receives `recDigest key`; the
result is its `hexdigest()`, i.e. the hex rendering of `H` of that stream. -/
def keyBuilderCall (H : List Nat → List Nat) (v : PyVal) : Except PDError String :=
  match KeyBuilder.recDigest H v with
  | .ok d => .ok (hexOfBytes (H d))
  | .error e => .error e

/-! ## The sqlite-backed stores -/

/-- `SELECT value FROM dict WHERE key=?` (the key is the primary key, so the
first match is the only one). -/
def sqlLookup (rows : List (String × List Nat)) (k : String) : Option (List Nat) :=
  (rows.find? (fun r => r.1 == k)).map (fun r => r.2)

/-- State of a mutable `PersistentDict`: the table rows in rowid order. -/
structure MutState where
  rows : List (String × List Nat)

/-- State of a `WriteOncePersistentDict`: the table rows in rowid order plus
the in-memory LRU cache of `_fetch` (most recently used first) and its
capacity (`in_mem_cache_size`). -/
structure WOState (V : Type) where
  rows : List (String × List Nat)
  cache : List (String × V)
  cap : Nat

section StoreOps

variable {V : Type} (H : List Nat → List Nat) (dumps : V → List Nat) (loads : List Nat → V)

namespace PersistentDict

/-- `PersistentDict.store`: hash the key, pickle the value; with
`_skip_if_present` a plain `INSERT` whose `IntegrityError` is swallowed,
otherwise `INSERT OR REPLACE` (the conflicting row is deleted and the new row
appended with a fresh rowid). -/
def store (s : MutState) (key : PyVal) (value : V) (skipIfPresent : Bool) :
    Except PDError MutState :=
  match keyBuilderCall H key with
  | .error e => .error e
  | .ok k =>
      let v := dumps value
      if skipIfPresent then
        if (sqlLookup s.rows k).isSome then .ok s
        else .ok ⟨s.rows ++ [(k, v)]⟩
      else
        .ok ⟨s.rows.filter (fun r => !(r.1 == k)) ++ [(k, v)]⟩

/-- `PersistentDict.store_if_not_present`. -/
def store_if_not_present (s : MutState) (key : PyVal) (value : V) :
    Except PDError MutState :=
  store H dumps s key value true

/-- `PersistentDict.fetch`: look the digest up; `NoSuchEntryError` if absent,
otherwise unpickle the stored blob. -/
def fetch (s : MutState) (key : PyVal) : Except PDError V :=
  match keyBuilderCall H key with
  | .error e => .error e
  | .ok k =>
      match sqlLookup s.rows k with
      | some blob => .ok (loads blob)
      | none => .error .noSuchEntry

/-- `PersistentDict.remove`: `DELETE ... WHERE key=?`, then raise
`NoSuchEntryError` if `changes()` reports that no row was deleted. -/
def remove (s : MutState) (key : PyVal) : Except PDError MutState :=
  match keyBuilderCall H key with
  | .error e => .error e
  | .ok k =>
      let rows2 := s.rows.filter (fun r => !(r.1 == k))
      if rows2.length == s.rows.length then .error .noSuchEntry
      else .ok ⟨rows2⟩

/-- `PersistentDict.clear`: `DELETE FROM dict`. -/
def clear (_s : MutState) : MutState := ⟨[]⟩

end PersistentDict

namespace WriteOncePersistentDict

/-- `WriteOncePersistentDict.store`: plain `INSERT`; on `IntegrityError`
(key already present) raise `ReadOnlyEntryError` unless `_skip_if_present`.
A failed insert leaves the table unchanged. -/
def store (s : WOState V) (key : PyVal) (value : V) (skipIfPresent : Bool) :
    Except PDError (WOState V) :=
  match keyBuilderCall H key with
  | .error e => .error e
  | .ok k =>
      let v := dumps value
      if (sqlLookup s.rows k).isSome then
        if skipIfPresent then .ok s else .error .readOnlyEntry
      else
        .ok ⟨s.rows ++ [(k, v)], s.cache, s.cap⟩

/-- `WriteOncePersistentDict.store_if_not_present`. -/
def store_if_not_present (s : WOState V) (key : PyVal) (value : V) :
    Except PDError (WOState V) :=
  store H dumps s key value true

/-- `WriteOncePersistentDict._fetch` wrapped in `functools.lru_cache`:
a cache hit returns the cached value and marks the entry most recently used;
a miss runs the underlying query and caches the unpickled value, evicting the
least recently used entry beyond capacity; a `KeyError` (row absent) is
raised and — as `lru_cache` does not cache exceptions — nothing is cached. -/
def _fetch (s : WOState V) (k : String) : Except PDError V × WOState V :=
  match s.cache.find? (fun e => e.1 == k) with
  | some e =>
      (.ok e.2, ⟨s.rows, (k, e.2) :: s.cache.filter (fun e2 => !(e2.1 == k)), s.cap⟩)
  | none =>
      match sqlLookup s.rows k with
      | some blob =>
          let v := loads blob
          (.ok v, ⟨s.rows, ((k, v) :: s.cache).take s.cap, s.cap⟩)
      | none => (.error .noSuchEntry, s)

/-- `WriteOncePersistentDict.fetch`: hash the key, consult the cached
`_fetch`, translating its `KeyError` into `NoSuchEntryError`. -/
def fetch (s : WOState V) (key : PyVal) : Except PDError V × WOState V :=
  match keyBuilderCall H key with
  | .error e => (.error e, s)
  | .ok k =>
      match _fetch loads s k with
      | (.error _, s2) => (.error .noSuchEntry, s2)
      | r => r

/-- `WriteOncePersistentDict.clear`: clear the table and the memory cache. -/
def clear (s : WOState V) : WOState V := ⟨[], [], s.cap⟩

/-- `WriteOncePersistentDict.clear_in_mem_cache`. -/
def clear_in_mem_cache (s : WOState V) : WOState V := ⟨s.rows, [], s.cap⟩

end WriteOncePersistentDict

namespace _PersistentDictBase

/-- `_PersistentDictBase.keys`: `SELECT key FROM dict ORDER BY rowid`. -/
def keys (rows : List (String × List Nat)) : List String := rows.map (fun r => r.1)

/-- `_PersistentDictBase.values`: unpickled blobs in rowid order. -/
def values (rows : List (String × List Nat)) : List V := rows.map (fun r => loads r.2)

/-- `_PersistentDictBase.items`: `(key, unpickled value)` pairs in rowid order. -/
def items (rows : List (String × List Nat)) : List (String × V) :=
  rows.map (fun r => (r.1, loads r.2))

end _PersistentDictBase

/-- The cache of a `WriteOncePersistentDict` only ever holds digests that are
present in the table: entries are only added by `_fetch` after a successful
row lookup, rows are never deleted except by `clear`, which also empties the
cache.  All reachable states satisfy this (see the preservation lemmas). -/
def WOInv (s : WOState V) : Prop :=
  ∀ e ∈ s.cache, (sqlLookup s.rows e.1).isSome = true

end StoreOps

/-! ## Auxiliary functions used to state and prove properties -/

/-- The digest of a value when hashing succeeds (`[]` otherwise). -/
def digOf (H : List Nat → List Nat) (x : PyVal) : List Nat :=
  match KeyBuilder.recDigest H x with
  | .ok d => d
  | .error _ => []

/-- Whether hashing a value succeeds (no `UnsupportedKeyType` inside). -/
def hashOk (H : List Nat → List Nat) (x : PyVal) : Bool :=
  match KeyBuilder.recDigest H x with
  | .ok _ => true
  | .error _ => false

/-- The frozendict sub-digest of a `(key, value)` pair (when both hash). -/
def digPair (H : List Nat → List Nat) (q : PyVal × PyVal) : List Nat :=
  H (H (digOf H q.1 ++ digOf H q.2))

/-! ## Toy instantiation used by the concrete witnesses -/

/-- A toy stand-in for the digest function: the identity (injective). -/
def toyH : List Nat → List Nat := id

/-- A toy pickle for `Nat` values. -/
def toyDumps (n : Nat) : List Nat := [n]

/-- The matching toy unpickle; `toyLoads (toyDumps v) = v` holds. -/
def toyLoads (l : List Nat) : Nat := l.headD 0

end PytoolsPersistentDict

namespace PytoolsPersistentDict

/-! ## Lemmas about table lookup -/

theorem sqlLookup_cons (r : String × List Nat) (rows : List (String × List Nat))
    (k : String) :
    sqlLookup (r :: rows) k = if r.1 = k then some r.2 else sqlLookup rows k := by
  by_cases h : r.1 = k <;> simp [sqlLookup, List.find?_cons, h]

theorem sqlLookup_append_of_none (rows1 rows2 : List (String × List Nat)) (k : String)
    (h : sqlLookup rows1 k = none) :
    sqlLookup (rows1 ++ rows2) k = sqlLookup rows2 k := by
  induction rows1 with
  | nil => simp
  | cons r rest ih =>
      rw [sqlLookup_cons] at h
      by_cases hr : r.1 = k
      · simp [hr] at h
      · rw [List.cons_append, sqlLookup_cons, if_neg hr]
        exact ih (by simpa [hr] using h)

theorem sqlLookup_filter_self (rows : List (String × List Nat)) (k : String) :
    sqlLookup (rows.filter (fun r => !(r.1 == k))) k = none := by
  induction rows with
  | nil => rfl
  | cons r rest ih =>
      by_cases hr : r.1 = k
      · simpa [List.filter_cons, hr] using ih
      · rw [List.filter_cons]
        simpa [hr, sqlLookup_cons] using ih

theorem filter_eq_self_of_lookup_none (rows : List (String × List Nat)) (k : String)
    (h : sqlLookup rows k = none) :
    rows.filter (fun r => !(r.1 == k)) = rows := by
  induction rows with
  | nil => rfl
  | cons r rest ih =>
      rw [sqlLookup_cons] at h
      by_cases hr : r.1 = k
      · simp [hr] at h
      · rw [List.filter_cons, if_pos (by simpa using hr)]
        rw [ih (by simpa [hr] using h)]

theorem cache_find_none {V : Type} (cache : List (String × V))
    (rows : List (String × List Nat)) (k : String)
    (hinv : ∀ e ∈ cache, (sqlLookup rows e.1).isSome = true)
    (h : sqlLookup rows k = none) :
    cache.find? (fun e => e.1 == k) = none := by
  cases hf : cache.find? (fun e => e.1 == k) with
  | none => rfl
  | some e =>
      exfalso
      have hek : e.1 = k := by simpa using List.find?_some hf
      have hmem : e ∈ cache := List.mem_of_find?_eq_some hf
      have := hinv e hmem
      rw [hek, h] at this
      simp at this

end PytoolsPersistentDict

namespace PytoolsPersistentDict

/-! ## Claim C7 -/

/-- Claim C7: for every value whose runtime kind matches no dispatch rule
and that has no custom hash hook and no memoized digest, hashing it fails
with the error the spec names `UnsupportedKeyType` (the
`TypeError("unsupported type for persistent hash keying: ...")` of
`KeyBuilder.rec`), which names the offending runtime type, and with no other
error kind; a memoized digest or a custom hook would instead make the hash
succeed. -/
theorem claim_C7 (H : List Nat → List Nat) (tname : String) (d s : List Nat) :
    keyBuilderCall H (.unsupported tname) = .error (.unsupportedKeyType tname) ∧
    keyBuilderCall H (.memo d) = .ok (hexOfBytes (H d)) ∧
    keyBuilderCall H (.hook s) = .ok (hexOfBytes (H (H s))) :=
  ⟨rfl, rfl, rfl⟩

/-! ## Claim C6 -/

/-- `update_for_bool True` and `update_for_str "True"` feed the very same
bytes (`b"True"`) to the hash, so the digest streams of `(True, "True")` and
`("True", True)` coincide for every digest function. -/
theorem bool_true_str_digest_eq (H : List Nat → List Nat) :
    keyBuilderCall H (.tuple [.bool true, .str "True"])
      = keyBuilderCall H (.tuple [.str "True", .bool true]) := rfl

/-- Claim C6 fails as stated: `True` and `"True"` are distinct, unequal
Python values, yet `digest((True, "True")) = digest(("True", True))`,
because `update_for_bool` hashes `str(True) = "True"` and `update_for_str`
hashes the same UTF-8 bytes. -/
theorem claim_C6_counterexample :
    PyVal.bool true ≠ PyVal.str "True" ∧
    keyBuilderCall toyH (.tuple [.bool true, .str "True"])
      = keyBuilderCall toyH (.tuple [.str "True", .bool true]) :=
  ⟨(fun h => nomatch h), bool_true_str_digest_eq toyH⟩

/-- Claim C6 (amended): for a collision-free digest function, whenever the
element digests of `a` and `b` differ (they have equal length for a real
fixed-width hash), the digest of the ordered sequence `(a, b)` differs from
that of `(b, a)`: swapping two elements with distinct digests is detected. -/
theorem claim_C6_amended (H : List Nat → List Nat) (hinj : Function.Injective H)
    (a b : PyVal) (da db : List Nat)
    (hda : KeyBuilder.recDigest H a = .ok da) (hdb : KeyBuilder.recDigest H b = .ok db)
    (hlen : da.length = db.length) (hne : da ≠ db) :
    KeyBuilder.recDigest H (.tuple [a, b]) ≠ KeyBuilder.recDigest H (.tuple [b, a]) := by
  intro h
  simp only [KeyBuilder.recDigest, KeyBuilder.recList, hda, hdb, List.flatten,
    List.append_nil, Except.ok.injEq] at h
  have h2 : da ++ db = db ++ da := hinj h
  exact hne (List.append_inj h2 hlen).1

end PytoolsPersistentDict

namespace PytoolsPersistentDict

/-- Witness for the amended claim C6 at concrete inputs `"x"`, `"y"`. -/
theorem claim_C6_witness :
    KeyBuilder.recDigest toyH (.tuple [.str "x", .str "y"])
      ≠ KeyBuilder.recDigest toyH (.tuple [.str "y", .str "x"]) :=
  claim_C6_amended toyH Function.injective_id (.str "x") (.str "y") [120] [121]
    rfl rfl rfl (by decide)

/-! ## Claim C5 -/

theorem recList_eq_map (H : List Nat → List Nat) (l : List PyVal)
    (h : ∀ x ∈ l, hashOk H x = true) :
    KeyBuilder.recList H l = .ok (l.map (digOf H)) := by
  induction l with
  | nil => rfl
  | cons x rest ih =>
      have hx := h x (List.mem_cons_self x rest)
      unfold hashOk at hx
      cases hrec : KeyBuilder.recDigest H x with
      | error e => rw [hrec] at hx; simp at hx
      | ok d =>
          rw [KeyBuilder.recList, hrec, ih (fun y hy => h y (List.mem_cons_of_mem x hy))]
          simp [digOf, hrec]

theorem recPairs_eq_map (H : List Nat → List Nat) (l : List (PyVal × PyVal))
    (h : ∀ q ∈ l, hashOk H q.1 = true ∧ hashOk H q.2 = true) :
    KeyBuilder.recPairs H l = .ok (l.map (digPair H)) := by
  induction l with
  | nil => rfl
  | cons q rest ih =>
      obtain ⟨h1, h2⟩ := h q (List.mem_cons_self q rest)
      unfold hashOk at h1 h2
      obtain ⟨k, v⟩ := q
      cases hk : KeyBuilder.recDigest H k with
      | error e => rw [hk] at h1; simp at h1
      | ok dk =>
          cases hv : KeyBuilder.recDigest H v with
          | error e => rw [hv] at h2; simp at h2
          | ok dv =>
              rw [KeyBuilder.recPairs, hk, hv,
                ih (fun y hy => h y (List.mem_cons_of_mem _ hy))]
              simp [digPair, digOf, hk, hv]

theorem sortLex_eq_of_perm (l1 l2 : List (List Nat)) (h : l1.Perm l2) :
    KeyBuilder.sortLex l1 = KeyBuilder.sortLex l2 :=
  List.eq_of_perm_of_sorted
    ((List.perm_insertionSort _ l1).trans (h.trans (List.perm_insertionSort _ l2).symm))
    (List.sorted_insertionSort _ l1) (List.sorted_insertionSort _ l2)

/-- Claim C5: the digest of an unordered collection (frozenset-like) and of
an unordered mapping (frozendict-like) is independent of the enumeration
order of the elements / key-value pairs: any two enumeration orders of the
same (hashable) elements yield the identical digest. -/
theorem claim_C5 (H : List Nat → List Nat) (l1 l2 : List PyVal)
    (p1 p2 : List (PyVal × PyVal)) :
    (l1.Perm l2 → (∀ x ∈ l1, hashOk H x = true) →
      keyBuilderCall H (.frozenset l1) = keyBuilderCall H (.frozenset l2)) ∧
    (p1.Perm p2 → (∀ q ∈ p1, hashOk H q.1 = true ∧ hashOk H q.2 = true) →
      keyBuilderCall H (.frozendict p1) = keyBuilderCall H (.frozendict p2)) := by
  constructor
  · intro hperm hok
    have hok2 : ∀ x ∈ l2, hashOk H x = true := fun x hx => hok x (hperm.mem_iff.mpr hx)
    rw [keyBuilderCall, keyBuilderCall, KeyBuilder.recDigest, KeyBuilder.recDigest,
      recList_eq_map H l1 hok, recList_eq_map H l2 hok2]
    have hperm2 : ((l1.map (digOf H)).map H).Perm ((l2.map (digOf H)).map H) :=
      (hperm.map (digOf H)).map H
    simp only [KeyBuilder.unordered_hash, sortLex_eq_of_perm _ _ hperm2]
  · intro hperm hok
    have hok2 : ∀ q ∈ p2, hashOk H q.1 = true ∧ hashOk H q.2 = true :=
      fun q hq => hok q (hperm.mem_iff.mpr hq)
    rw [keyBuilderCall, keyBuilderCall, KeyBuilder.recDigest, KeyBuilder.recDigest,
      recPairs_eq_map H p1 hok, recPairs_eq_map H p2 hok2]
    have hperm2 : (p1.map (digPair H)).Perm (p2.map (digPair H)) := hperm.map (digPair H)
    simp only [KeyBuilder.unordered_hash, sortLex_eq_of_perm _ _ hperm2]

/-- Witness for claim C5: concrete two-element frozenset and frozendict in
both enumeration orders. -/
theorem claim_C5_witness :
    keyBuilderCall toyH (.frozenset [.int 1, .int 2])
        = keyBuilderCall toyH (.frozenset [.int 2, .int 1]) ∧
    keyBuilderCall toyH (.frozendict [(.str "k1", .int 1), (.str "k2", .int 2)])
        = keyBuilderCall toyH (.frozendict [(.str "k2", .int 2), (.str "k1", .int 1)]) :=
  ⟨(claim_C5 toyH [.int 1, .int 2] [.int 2, .int 1] [] []).1
      (List.Perm.swap (PyVal.int 2) (PyVal.int 1) []) (by decide),
    (claim_C5 toyH [] [] [(.str "k1", .int 1), (.str "k2", .int 2)]
        [(.str "k2", .int 2), (.str "k1", .int 1)]).2
      (List.Perm.swap (PyVal.str "k2", PyVal.int 2) (PyVal.str "k1", PyVal.int 1) [])
      (by decide)⟩

end PytoolsPersistentDict

namespace PytoolsPersistentDict

/-! ## Claim C8: the integer encoding -/

theorem toBytesLE_length (v sz : Nat) : (KeyBuilder.toBytesLE v sz).length = sz := by
  induction sz generalizing v with
  | zero => rfl
  | succ sz ih => simp [KeyBuilder.toBytesLE, ih]

theorem toBytesLE_inj (sz v w : Nat) (hv : v < 256 ^ sz) (hw : w < 256 ^ sz)
    (h : KeyBuilder.toBytesLE v sz = KeyBuilder.toBytesLE w sz) : v = w := by
  induction sz generalizing v w with
  | zero =>
      simp only [pow_zero] at hv hw
      omega
  | succ sz ih =>
      simp only [KeyBuilder.toBytesLE, List.cons.injEq] at h
      have hv2 : v / 256 < 256 ^ sz := by
        rw [pow_succ] at hv
        exact (Nat.div_lt_iff_lt_mul (by norm_num)).mpr hv
      have hw2 : w / 256 < 256 ^ sz := by
        rw [pow_succ] at hw
        exact (Nat.div_lt_iff_lt_mul (by norm_num)).mpr hw
      have hd := ih (v / 256) (w / 256) hv2 hw2 h.2
      have hm := h.1
      omega

theorem to_bytes_toNat_lt (n : Int) (sz : Nat) :
    (n % (2 ^ (8 * sz) : Int)).toNat < 256 ^ sz := by
  have hpos : (0 : Int) < 2 ^ (8 * sz) := by positivity
  have h1 : n % 2 ^ (8 * sz) < 2 ^ (8 * sz) := Int.emod_lt_of_pos n hpos
  have h2 : (0 : Int) ≤ n % 2 ^ (8 * sz) := Int.emod_nonneg n hpos.ne'
  have h3 : ((2 : Int) ^ (8 * sz)) = ((256 ^ sz : Nat) : Int) := by
    push_cast
    rw [pow_mul]
    norm_num
  rw [h3] at h1
  omega

theorem emod_signed_eq (x B : Int) (hB : 0 < B) (hx1 : -B ≤ x) (hx2 : x < B) :
    x % (B * 2) = if 0 ≤ x then x else x + B * 2 := by
  by_cases h0 : 0 ≤ x
  · rw [if_pos h0, Int.emod_eq_of_lt h0 (by linarith)]
  · rw [if_neg h0]
    have h1 : (x + B * 2 * 1) % (B * 2) = x % (B * 2) :=
      Int.add_mul_emod_self_left x (B * 2) 1
    rw [mul_one] at h1
    rw [← h1, Int.emod_eq_of_lt (by linarith) (by linarith)]

theorem fitsSigned_emod_inj (m n : Int) (sz : Nat) (hsz : 1 ≤ sz)
    (hm : KeyBuilder.fitsSigned m sz = true) (hn : KeyBuilder.fitsSigned n sz = true)
    (h : m % (2 ^ (8 * sz) : Int) = n % (2 ^ (8 * sz) : Int)) : m = n := by
  simp only [KeyBuilder.fitsSigned, decide_eq_true_eq] at hm hn
  have hM : (2 : Int) ^ (8 * sz) = 2 ^ (8 * sz - 1) * 2 := by
    rw [← pow_succ]
    congr 1
    omega
  have hBpos : (0 : Int) < 2 ^ (8 * sz - 1) := by positivity
  rw [hM, emod_signed_eq m _ hBpos hm.1 hm.2, emod_signed_eq n _ hBpos hn.1 hn.2] at h
  split_ifs at h <;> linarith [hm.1, hm.2, hn.1, hn.2]

theorem fitsSigned_of_natAbs_lt (n : Int) (sz : Nat)
    (h : n.natAbs < 2 ^ (8 * sz - 1)) : KeyBuilder.fitsSigned n sz = true := by
  simp only [KeyBuilder.fitsSigned, decide_eq_true_eq]
  have h2 : ((n.natAbs : Int)) < 2 ^ (8 * sz - 1) := by exact_mod_cast h
  have h3 : n ≤ (n.natAbs : Int) := by omega
  have h4 : -(n.natAbs : Int) ≤ n := by omega
  constructor
  · linarith
  · linarith

theorem update_for_int_loop_spec (n : Int) :
    ∀ (fuel sz : Nat), KeyBuilder.fitsSigned n (sz * 2 ^ fuel) = true →
      ∃ j, KeyBuilder.update_for_int_loop n sz fuel
            = KeyBuilder.to_bytes_signed_le n (sz * 2 ^ j) ∧
        KeyBuilder.fitsSigned n (sz * 2 ^ j) = true ∧ j ≤ fuel ∧
        ∀ i, i < j → KeyBuilder.fitsSigned n (sz * 2 ^ i) = false := by
  intro fuel
  induction fuel with
  | zero =>
      intro sz hfit
      refine ⟨0, by simp [KeyBuilder.update_for_int_loop], by simpa using hfit,
        Nat.le_refl 0, fun i hi => absurd hi (Nat.not_lt_zero i)⟩
  | succ fuel ih =>
      intro sz hfit
      by_cases hs : KeyBuilder.fitsSigned n sz = true
      · refine ⟨0, ?_, by simpa using hs, Nat.zero_le _,
          fun i hi => absurd hi (Nat.not_lt_zero i)⟩
        simp [KeyBuilder.update_for_int_loop, hs]
      · have hfit2 : KeyBuilder.fitsSigned n ((sz * 2) * 2 ^ fuel) = true := by
          have harith : (sz * 2) * 2 ^ fuel = sz * 2 ^ (fuel + 1) := by ring
          rw [harith]
          exact hfit
        obtain ⟨j, hj1, hj2, hj3, hj4⟩ := ih (sz * 2) hfit2
        refine ⟨j + 1, ?_, ?_, by omega, ?_⟩
        · rw [KeyBuilder.update_for_int_loop, if_neg hs, hj1]
          congr 1
          ring
        · have harith : sz * 2 ^ (j + 1) = (sz * 2) * 2 ^ j := by ring
          rw [harith]
          exact hj2
        · intro i hi
          cases i with
          | zero =>
              simp only [pow_zero, Nat.mul_one]
              exact eq_false_of_ne_true hs
          | succ i =>
              have harith : sz * 2 ^ (i + 1) = (sz * 2) * 2 ^ i := by ring
              rw [harith]
              exact hj4 i (by omega)

theorem fitsSigned_top (n : Int) :
    KeyBuilder.fitsSigned n (8 * 2 ^ (n.natAbs + 1)) = true := by
  apply fitsSigned_of_natAbs_lt
  have h1 : n.natAbs < 2 ^ n.natAbs := Nat.lt_two_pow n.natAbs
  have h3 : n.natAbs + 1 ≤ 2 ^ (n.natAbs + 1) := le_of_lt (Nat.lt_two_pow (n.natAbs + 1))
  have h2 : (2 : Nat) ^ n.natAbs ≤ 2 ^ (8 * (8 * 2 ^ (n.natAbs + 1)) - 1) := by
    apply Nat.pow_le_pow_right (by norm_num)
    generalize (2 : Nat) ^ (n.natAbs + 1) = t at h3
    omega
  omega

theorem update_for_int_spec (n : Int) :
    ∃ k, KeyBuilder.update_for_int n = KeyBuilder.to_bytes_signed_le n (8 * 2 ^ k) ∧
      KeyBuilder.fitsSigned n (8 * 2 ^ k) = true ∧
      ∀ j, j < k → KeyBuilder.fitsSigned n (8 * 2 ^ j) = false := by
  obtain ⟨j, h1, h2, _, h4⟩ := update_for_int_loop_spec n (n.natAbs + 1) 8 (fitsSigned_top n)
  exact ⟨j, h1, h2, h4⟩

theorem update_for_int_inj (m n : Int) (h : m ≠ n) :
    KeyBuilder.update_for_int m ≠ KeyBuilder.update_for_int n := by
  intro heq
  obtain ⟨km, hm1, hm2, _⟩ := update_for_int_spec m
  obtain ⟨kn, hn1, hn2, _⟩ := update_for_int_spec n
  rw [hm1, hn1] at heq
  have hlen : 8 * 2 ^ km = 8 * 2 ^ kn := by
    have hl := congrArg List.length heq
    simpa [KeyBuilder.to_bytes_signed_le, toBytesLE_length] using hl
  rw [← hlen] at heq hn2
  have hw1 : 1 ≤ 8 * 2 ^ km := Nat.succ_le_of_lt (by positivity)
  have hinj := toBytesLE_inj (8 * 2 ^ km) _ _
    (to_bytes_toNat_lt m (8 * 2 ^ km)) (to_bytes_toNat_lt n (8 * 2 ^ km)) heq
  have hpos : (0 : Int) < 2 ^ (8 * (8 * 2 ^ km)) := by positivity
  have hm0 : (0 : Int) ≤ m % 2 ^ (8 * (8 * 2 ^ km)) := Int.emod_nonneg m hpos.ne'
  have hn0 : (0 : Int) ≤ n % 2 ^ (8 * (8 * 2 ^ km)) := Int.emod_nonneg n hpos.ne'
  have hmod : m % (2 ^ (8 * (8 * 2 ^ km)) : Int) = n % (2 ^ (8 * (8 * 2 ^ km)) : Int) := by
    omega
  exact h (fitsSigned_emod_inj m n (8 * 2 ^ km) hw1 hm2 hn2 hmod)

/-- Claim C8: the bytes fed to the hash for an integer `n` are `n`'s
two's-complement little-endian encoding at the first width from the doubling
sequence 8, 16, 32, ... bytes that fits `n` (all smaller widths in the
sequence overflow); consequently distinct integers have distinct encoded
byte strings, and distinct digests under a collision-free hash. -/
theorem claim_C8 (m n : Int) :
    (∃ k, KeyBuilder.update_for_int n = KeyBuilder.to_bytes_signed_le n (8 * 2 ^ k) ∧
        KeyBuilder.fitsSigned n (8 * 2 ^ k) = true ∧
        ∀ j, j < k → KeyBuilder.fitsSigned n (8 * 2 ^ j) = false) ∧
    (m ≠ n → KeyBuilder.update_for_int m ≠ KeyBuilder.update_for_int n) ∧
    (∀ H, Function.Injective H → m ≠ n →
        KeyBuilder.recDigest H (.int m) ≠ KeyBuilder.recDigest H (.int n)) := by
  refine ⟨update_for_int_spec n, update_for_int_inj m n, ?_⟩
  intro H hinj hmn heq
  simp only [KeyBuilder.recDigest, Except.ok.injEq] at heq
  exact update_for_int_inj m n hmn (hinj heq)

/-- Witness for claim C8 at the concrete integers 0 and 1. -/
theorem claim_C8_witness :
    KeyBuilder.update_for_int 0 ≠ KeyBuilder.update_for_int 1 ∧
    KeyBuilder.recDigest toyH (.int 0) ≠ KeyBuilder.recDigest toyH (.int 1) :=
  ⟨(claim_C8 0 1).2.1 (by decide),
    (claim_C8 0 1).2.2 toyH Function.injective_id (by decide)⟩

end PytoolsPersistentDict


namespace PytoolsPersistentDict

/-! ## Small lookup corollaries and one-step equations for the store
operations (each right-hand side is definitional once the key digest and
the relevant lookups are fixed) -/

theorem sqlLookup_singleton (k : String) (v : List Nat) :
    sqlLookup [(k, v)] k = some v := by
  simp [sqlLookup]

theorem isSome_eq_none {α : Type} (o : Option α) (h : ¬o.isSome = true) : o = none := by
  cases o with
  | none => rfl
  | some a => simp at h

theorem mut_store_eq {V : Type} (H : List Nat → List Nat) (dumps : V → List Nat)
    (s : MutState) (key : PyVal) (value : V) (kh : String)
    (hkb : keyBuilderCall H key = .ok kh) :
    PersistentDict.store H dumps s key value false
      = .ok ⟨s.rows.filter (fun r => !(r.1 == kh)) ++ [(kh, dumps value)]⟩ := by
  rw [PersistentDict.store, hkb]
  rfl

theorem mut_store_error {V : Type} (H : List Nat → List Nat) (dumps : V → List Nat)
    (s : MutState) (key : PyVal) (value : V) (skip : Bool) (e : PDError)
    (hkb : keyBuilderCall H key = .error e) :
    PersistentDict.store H dumps s key value skip = .error e := by
  rw [PersistentDict.store, hkb]

theorem mut_fetch_hit {V : Type} (H : List Nat → List Nat) (loads : List Nat → V)
    (s : MutState) (key : PyVal) (kh : String) (blob : List Nat)
    (hkb : keyBuilderCall H key = .ok kh) (hlk : sqlLookup s.rows kh = some blob) :
    PersistentDict.fetch H loads s key = .ok (loads blob) := by
  rw [PersistentDict.fetch, hkb]
  dsimp only
  rw [hlk]

theorem mut_fetch_miss {V : Type} (H : List Nat → List Nat) (loads : List Nat → V)
    (s : MutState) (key : PyVal) (kh : String)
    (hkb : keyBuilderCall H key = .ok kh) (hlk : sqlLookup s.rows kh = none) :
    PersistentDict.fetch H loads s key = .error .noSuchEntry := by
  rw [PersistentDict.fetch, hkb]
  dsimp only
  rw [hlk]

theorem mut_remove_miss (H : List Nat → List Nat)
    (s : MutState) (key : PyVal) (kh : String)
    (hkb : keyBuilderCall H key = .ok kh) (hlk : sqlLookup s.rows kh = none) :
    PersistentDict.remove H s key = .error .noSuchEntry := by
  rw [PersistentDict.remove, hkb]
  dsimp only
  rw [filter_eq_self_of_lookup_none s.rows kh hlk]
  simp

theorem mut_remove_step (H : List Nat → List Nat)
    (s : MutState) (key : PyVal) (kh : String)
    (hkb : keyBuilderCall H key = .ok kh) :
    PersistentDict.remove H s key
      = if ((s.rows.filter (fun r => !(r.1 == kh))).length == s.rows.length) = true
        then .error .noSuchEntry
        else .ok ⟨s.rows.filter (fun r => !(r.1 == kh))⟩ := by
  rw [PersistentDict.remove, hkb]

theorem wo_store_ok {V : Type} (H : List Nat → List Nat) (dumps : V → List Nat)
    (s : WOState V) (key : PyVal) (value : V) (kh : String)
    (hkb : keyBuilderCall H key = .ok kh) (hlk : sqlLookup s.rows kh = none) :
    WriteOncePersistentDict.store H dumps s key value false
      = .ok ⟨s.rows ++ [(kh, dumps value)], s.cache, s.cap⟩ := by
  rw [WriteOncePersistentDict.store, hkb]
  dsimp only
  rw [hlk]
  rfl

theorem wo_store_conflict {V : Type} (H : List Nat → List Nat) (dumps : V → List Nat)
    (s : WOState V) (key : PyVal) (value : V) (kh : String) (blob : List Nat)
    (hkb : keyBuilderCall H key = .ok kh) (hlk : sqlLookup s.rows kh = some blob) :
    WriteOncePersistentDict.store H dumps s key value false = .error .readOnlyEntry := by
  rw [WriteOncePersistentDict.store, hkb]
  dsimp only
  rw [hlk]
  rfl

theorem wo_fetch_step {V : Type} (H : List Nat → List Nat) (loads : List Nat → V)
    (s : WOState V) (key : PyVal) (kh : String)
    (hkb : keyBuilderCall H key = .ok kh) :
    WriteOncePersistentDict.fetch H loads s key
      = match WriteOncePersistentDict._fetch loads s kh with
        | (.error _, s2) => (.error .noSuchEntry, s2)
        | r => r := by
  rw [WriteOncePersistentDict.fetch, hkb]

theorem wo_fetch_cache_hit {V : Type} (loads : List Nat → V)
    (s : WOState V) (k : String) (e : String × V)
    (hc : s.cache.find? (fun e2 => e2.1 == k) = some e) :
    WriteOncePersistentDict._fetch loads s k
      = (.ok e.2, ⟨s.rows, (k, e.2) :: s.cache.filter (fun e2 => !(e2.1 == k)), s.cap⟩) := by
  rw [WriteOncePersistentDict._fetch, hc]

theorem wo_fetch_table_hit {V : Type} (loads : List Nat → V)
    (s : WOState V) (k : String) (blob : List Nat)
    (hc : s.cache.find? (fun e2 => e2.1 == k) = none)
    (hlk : sqlLookup s.rows k = some blob) :
    WriteOncePersistentDict._fetch loads s k
      = (.ok (loads blob),
          ⟨s.rows, ((k, loads blob) :: s.cache).take s.cap, s.cap⟩) := by
  rw [WriteOncePersistentDict._fetch, hc]
  dsimp only
  rw [hlk]

theorem wo_fetch_table_miss {V : Type} (loads : List Nat → V)
    (s : WOState V) (k : String)
    (hc : s.cache.find? (fun e2 => e2.1 == k) = none)
    (hlk : sqlLookup s.rows k = none) :
    WriteOncePersistentDict._fetch loads s k = (.error .noSuchEntry, s) := by
  rw [WriteOncePersistentDict._fetch, hc]
  dsimp only
  rw [hlk]

theorem wo_fetch_error {V : Type} (H : List Nat → List Nat) (loads : List Nat → V)
    (s : WOState V) (key : PyVal) (e : PDError)
    (hkb : keyBuilderCall H key = .error e) :
    WriteOncePersistentDict.fetch H loads s key = (.error e, s) := by
  rw [WriteOncePersistentDict.fetch, hkb]

end PytoolsPersistentDict

namespace PytoolsPersistentDict

/-! ## Claim C1 -/

/-- Claim C1: for every key and value, under either discipline, a successful
`store(key, value)` followed by `fetch(key)` (any structurally equal key
hashes to the same digest, so it is represented by the same `PyVal`) returns
a value equal to the original value.  For the write-once discipline the
store state must satisfy the cache invariant `WOInv`, which holds in every
reachable state. -/
theorem claim_C1 {V : Type} (H : List Nat → List Nat) (dumps : V → List Nat)
    (loads : List Nat → V) (hround : ∀ v, loads (dumps v) = v)
    (key : PyVal) (value : V) :
    (∀ s s2 : MutState, PersistentDict.store H dumps s key value false = .ok s2 →
      PersistentDict.fetch H loads s2 key = .ok value) ∧
    (∀ s s2 : WOState V, WOInv s →
      WriteOncePersistentDict.store H dumps s key value false = .ok s2 →
      (WriteOncePersistentDict.fetch H loads s2 key).1 = .ok value) := by
  constructor
  · intro s s2 hst
    cases hkb : keyBuilderCall H key with
    | error e =>
        rw [mut_store_error H dumps s key value false e hkb] at hst
        exact absurd hst (by simp)
    | ok kh =>
        rw [mut_store_eq H dumps s key value kh hkb] at hst
        simp only [Except.ok.injEq] at hst
        subst hst
        have hlk2 : sqlLookup (s.rows.filter (fun r => !(r.1 == kh))
            ++ [(kh, dumps value)]) kh = some (dumps value) := by
          rw [sqlLookup_append_of_none _ _ _ (sqlLookup_filter_self s.rows kh),
            sqlLookup_singleton]
        rw [mut_fetch_hit H loads _ key kh (dumps value) hkb hlk2, hround]
  · intro s s2 hinv hst
    cases hkb : keyBuilderCall H key with
    | error e =>
        rw [WriteOncePersistentDict.store, hkb] at hst
        exact absurd hst (by simp)
    | ok kh =>
        cases hlk : sqlLookup s.rows kh with
        | some blob =>
            rw [wo_store_conflict H dumps s key value kh blob hkb hlk] at hst
            exact absurd hst (by simp)
        | none =>
            rw [wo_store_ok H dumps s key value kh hkb hlk] at hst
            simp only [Except.ok.injEq] at hst
            subst hst
            have hcache := cache_find_none s.cache s.rows kh hinv hlk
            have hlk2 : sqlLookup (s.rows ++ [(kh, dumps value)]) kh
                = some (dumps value) := by
              rw [sqlLookup_append_of_none _ _ _ hlk, sqlLookup_singleton]
            rw [wo_fetch_step H loads _ key kh hkb,
              wo_fetch_table_hit loads
                ⟨s.rows ++ [(kh, dumps value)], s.cache, s.cap⟩ kh (dumps value)
                hcache hlk2]
            dsimp only
            rw [hround]

/-- Witness for claim C1 at a concrete key and value under both disciplines. -/
theorem claim_C1_witness :
    PersistentDict.fetch toyH toyLoads ⟨[("6b", [5])]⟩ (.str "k") = .ok 5 ∧
    (WriteOncePersistentDict.fetch toyH toyLoads ⟨[("6b", [5])], [], 2⟩ (.str "k")).1
      = .ok 5 :=
  ⟨(claim_C1 toyH toyDumps toyLoads (fun _ => rfl) (.str "k") 5).1 ⟨[]⟩
      ⟨[("6b", [5])]⟩ rfl,
    (claim_C1 toyH toyDumps toyLoads (fun _ => rfl) (.str "k") 5).2 ⟨[], [], 2⟩
      ⟨[("6b", [5])], [], 2⟩ (fun e he => absurd he (List.not_mem_nil e)) rfl⟩

/-! ## Claim C2 -/

/-- Claim C2: under the write-once discipline, after `store(key, v1)`
succeeds, a subsequent `store(key, v2)` with `v1 ≠ v2` fails with
`ReadOnlyEntryError` (the failed `INSERT` inserts nothing, so the stored
state is unchanged), and `fetch(key)` still returns `v1`. -/
theorem claim_C2 {V : Type} (H : List Nat → List Nat) (dumps : V → List Nat)
    (loads : List Nat → V) (hround : ∀ v, loads (dumps v) = v)
    (key : PyVal) (v1 v2 : V) (_hne : v1 ≠ v2)
    (s s1 : WOState V) (hinv : WOInv s)
    (h1 : WriteOncePersistentDict.store H dumps s key v1 false = .ok s1) :
    WriteOncePersistentDict.store H dumps s1 key v2 false = .error .readOnlyEntry ∧
    (WriteOncePersistentDict.fetch H loads s1 key).1 = .ok v1 := by
  cases hkb : keyBuilderCall H key with
  | error e =>
      rw [WriteOncePersistentDict.store, hkb] at h1
      exact absurd h1 (by simp)
  | ok kh =>
      cases hlk : sqlLookup s.rows kh with
      | some blob =>
          rw [wo_store_conflict H dumps s key v1 kh blob hkb hlk] at h1
          exact absurd h1 (by simp)
      | none =>
          rw [wo_store_ok H dumps s key v1 kh hkb hlk] at h1
          simp only [Except.ok.injEq] at h1
          subst h1
          have hcache := cache_find_none s.cache s.rows kh hinv hlk
          have hfound : sqlLookup (s.rows ++ [(kh, dumps v1)]) kh = some (dumps v1) := by
            rw [sqlLookup_append_of_none _ _ _ hlk, sqlLookup_singleton]
          refine ⟨wo_store_conflict H dumps _ key v2 kh (dumps v1) hkb hfound, ?_⟩
          rw [wo_fetch_step H loads _ key kh hkb,
            wo_fetch_table_hit loads
              ⟨s.rows ++ [(kh, dumps v1)], s.cache, s.cap⟩ kh (dumps v1)
              hcache hfound]
          dsimp only
          rw [hround]

/-- Witness for claim C2 at a concrete key and two distinct values. -/
theorem claim_C2_witness :
    WriteOncePersistentDict.store toyH toyDumps ⟨[("6b", [5])], [], 2⟩ (.str "k") 6 false
        = .error .readOnlyEntry ∧
    (WriteOncePersistentDict.fetch toyH toyLoads ⟨[("6b", [5])], [], 2⟩ (.str "k")).1
        = .ok 5 :=
  claim_C2 toyH toyDumps toyLoads (fun _ => rfl) (.str "k") 5 6 (by decide)
    ⟨[], [], 2⟩ ⟨[("6b", [5])], [], 2⟩ (fun e he => absurd he (List.not_mem_nil e)) rfl

/-! ## Claim C3 -/

/-- Claim C3: under the mutable discipline, for every hashable key and
values `v1`, `v2`: `store(key, v1)` then `store(key, v2)` then `fetch(key)`
returns `v2`, and neither store raises (the model has no backing-engine I/O
failures). -/
theorem claim_C3 {V : Type} (H : List Nat → List Nat) (dumps : V → List Nat)
    (loads : List Nat → V) (hround : ∀ v, loads (dumps v) = v)
    (key : PyVal) (kh : String) (hkb : keyBuilderCall H key = .ok kh)
    (v1 v2 : V) (s : MutState) :
    ∃ s1 s2, PersistentDict.store H dumps s key v1 false = .ok s1 ∧
      PersistentDict.store H dumps s1 key v2 false = .ok s2 ∧
      PersistentDict.fetch H loads s2 key = .ok v2 := by
  refine ⟨_, _, mut_store_eq H dumps s key v1 kh hkb, mut_store_eq H dumps _ key v2 kh hkb,
    ?_⟩
  have hlk2 : sqlLookup ((s.rows.filter (fun r => !(r.1 == kh))
      ++ [(kh, dumps v1)]).filter (fun r => !(r.1 == kh)) ++ [(kh, dumps v2)]) kh
      = some (dumps v2) := by
    rw [sqlLookup_append_of_none _ _ _ (sqlLookup_filter_self _ kh), sqlLookup_singleton]
  rw [mut_fetch_hit H loads _ key kh (dumps v2) hkb hlk2, hround]

/-- Witness for claim C3 at a concrete key and values. -/
theorem claim_C3_witness :
    ∃ s1 s2, PersistentDict.store toyH toyDumps ⟨[]⟩ (.str "k") 1 false = .ok s1 ∧
      PersistentDict.store toyH toyDumps s1 (.str "k") 2 false = .ok s2 ∧
      PersistentDict.fetch toyH toyLoads s2 (.str "k") = .ok 2 :=
  claim_C3 toyH toyDumps toyLoads (fun _ => rfl) (.str "k") "6b" rfl 1 2 ⟨[]⟩

/-! ## Claim C4 -/

/-- Claim C4: for every key whose digest is absent from the table,
`fetch(key)` fails with `NoSuchEntryError` under both disciplines, and
`remove(key)` fails with `NoSuchEntryError` under the mutable discipline;
the contents are unchanged by each failing call (the mutable `DELETE`
matches no row, and the failed write-once fetch returns the state
unmodified, so in particular the LRU cache is not populated). -/
theorem claim_C4 {V : Type} (H : List Nat → List Nat) (loads : List Nat → V)
    (key : PyVal) (kh : String) (hkb : keyBuilderCall H key = .ok kh)
    (sm : MutState) (hm : sqlLookup sm.rows kh = none)
    (sw : WOState V) (hw : sqlLookup sw.rows kh = none) (hinv : WOInv sw) :
    PersistentDict.fetch H loads sm key = .error .noSuchEntry ∧
    PersistentDict.remove H sm key = .error .noSuchEntry ∧
    sm.rows.filter (fun r => !(r.1 == kh)) = sm.rows ∧
    WriteOncePersistentDict.fetch H loads sw key = (.error .noSuchEntry, sw) := by
  have hcache := cache_find_none sw.cache sw.rows kh hinv hw
  refine ⟨mut_fetch_miss H loads sm key kh hkb hm, mut_remove_miss H sm key kh hkb hm,
    filter_eq_self_of_lookup_none sm.rows kh hm, ?_⟩
  rw [wo_fetch_step H loads sw key kh hkb, wo_fetch_table_miss loads sw kh hcache hw]

/-- Witness for claim C4 at a concrete never-stored key. -/
theorem claim_C4_witness :
    PersistentDict.fetch toyH toyLoads ⟨[]⟩ (.str "k") = .error .noSuchEntry ∧
    PersistentDict.remove toyH ⟨[]⟩ (.str "k") = .error .noSuchEntry ∧
    WriteOncePersistentDict.fetch toyH toyLoads ⟨[], [], 2⟩ (.str "k")
      = (.error .noSuchEntry, ⟨[], [], 2⟩) := by
  have h := claim_C4 toyH toyLoads (.str "k") "6b" rfl ⟨[]⟩ rfl ⟨[], [], 2⟩ rfl
    (fun e he => absurd he (List.not_mem_nil e))
  exact ⟨h.1, h.2.1, h.2.2.2⟩

/-! ## Claim C10 -/

/-- Claim C10: under the write-once discipline, a `fetch(key)` that fails
with `NoSuchEntryError` does not populate the in-memory LRU cache
(`functools.lru_cache` does not cache raised exceptions): the state is
returned unchanged, and if `store(key, v)` later succeeds, a subsequent
`fetch(key)` returns `v` rather than replaying the earlier failure. -/
theorem claim_C10 {V : Type} (H : List Nat → List Nat) (dumps : V → List Nat)
    (loads : List Nat → V) (hround : ∀ v, loads (dumps v) = v)
    (key : PyVal) (kh : String) (hkb : keyBuilderCall H key = .ok kh)
    (s s2 : WOState V)
    (hfail : WriteOncePersistentDict.fetch H loads s key = (.error .noSuchEntry, s2)) :
    s2 = s ∧
    (∀ (value : V) (s3 : WOState V),
      WriteOncePersistentDict.store H dumps s key value false = .ok s3 →
      (WriteOncePersistentDict.fetch H loads s3 key).1 = .ok value) := by
  rw [wo_fetch_step H loads s key kh hkb] at hfail
  cases hc : s.cache.find? (fun e2 => e2.1 == kh) with
  | some e =>
      rw [wo_fetch_cache_hit loads s kh e hc] at hfail
      simp at hfail
  | none =>
      cases hlk : sqlLookup s.rows kh with
      | some blob =>
          rw [wo_fetch_table_hit loads s kh blob hc hlk] at hfail
          simp at hfail
      | none =>
          rw [wo_fetch_table_miss loads s kh hc hlk] at hfail
          simp only [Prod.mk.injEq] at hfail
          refine ⟨hfail.2.symm, ?_⟩
          intro value s3 hst
          rw [wo_store_ok H dumps s key value kh hkb hlk] at hst
          simp only [Except.ok.injEq] at hst
          subst hst
          have hlk2 : sqlLookup (s.rows ++ [(kh, dumps value)]) kh
              = some (dumps value) := by
            rw [sqlLookup_append_of_none _ _ _ hlk, sqlLookup_singleton]
          rw [wo_fetch_step H loads _ key kh hkb,
            wo_fetch_table_hit loads
              ⟨s.rows ++ [(kh, dumps value)], s.cache, s.cap⟩ kh (dumps value)
              hc hlk2]
          dsimp only
          rw [hround]

/-- Witness for claim C10: a failed fetch from the empty store leaves it
unchanged; after a successful store, the fetch returns the stored value. -/
theorem claim_C10_witness :
    (WriteOncePersistentDict.fetch toyH toyLoads ⟨[("6b", [7])], [], 2⟩ (.str "k")).1
      = .ok 7 :=
  (claim_C10 toyH toyDumps toyLoads (fun _ => rfl) (.str "k") "6b" rfl
    ⟨[], [], 2⟩ ⟨[], [], 2⟩ rfl).2 7 ⟨[("6b", [7])], [], 2⟩ rfl

end PytoolsPersistentDict

namespace PytoolsPersistentDict

/-! ## Claim C9 -/

theorem keys_append (rows1 rows2 : List (String × List Nat)) :
    _PersistentDictBase.keys (rows1 ++ rows2)
      = _PersistentDictBase.keys rows1 ++ _PersistentDictBase.keys rows2 := by
  simp [_PersistentDictBase.keys]

theorem keys_filter (rows : List (String × List Nat)) (kh : String) :
    _PersistentDictBase.keys (rows.filter (fun r => !(r.1 == kh)))
      = (_PersistentDictBase.keys rows).filter (fun x => !(x == kh)) := by
  induction rows with
  | nil => rfl
  | cons r rest ih =>
      cases hr : r.1 == kh with
      | true =>
          simp only [_PersistentDictBase.keys] at ih
          simp [_PersistentDictBase.keys, List.filter_cons, hr, ih]
      | false =>
          simp only [_PersistentDictBase.keys] at ih
          simp [_PersistentDictBase.keys, List.filter_cons, hr, ih]

theorem items_eq_zip {V : Type} (loads : List Nat → V) (rows : List (String × List Nat)) :
    _PersistentDictBase.items loads rows
      = (_PersistentDictBase.keys rows).zip (_PersistentDictBase.values loads rows) := by
  induction rows with
  | nil => rfl
  | cons r rest ih =>
      rw [show _PersistentDictBase.items loads (r :: rest)
            = (r.1, loads r.2) :: _PersistentDictBase.items loads rest from rfl,
        show _PersistentDictBase.keys (r :: rest) = r.1 :: _PersistentDictBase.keys rest
          from rfl,
        show _PersistentDictBase.values loads (r :: rest)
            = loads r.2 :: _PersistentDictBase.values loads rest from rfl,
        List.zip_cons_cons, ih]

/-- Claim C9 fails as stated for the mutable discipline: `INSERT OR REPLACE`
deletes the conflicting row and appends a fresh one, whose new rowid places
it at the *end* of `ORDER BY rowid` iteration.  Concretely: store under key
`"a"` (digest `"61"`), then key `"b"` (digest `"62"`), then overwrite key
`"a"`; digest `"61"` first entered the table before `"62"`, yet `keys()`
enumerates `["62", "61"]`, not the original insertion order `["61", "62"]`. -/
theorem claim_C9_counterexample :
    keyBuilderCall toyH (.str "a") = .ok "61" ∧
    keyBuilderCall toyH (.str "b") = .ok "62" ∧
    ((PersistentDict.store toyH toyDumps ⟨[]⟩ (.str "a") 1 false).bind (fun s1 =>
      (PersistentDict.store toyH toyDumps s1 (.str "b") 2 false).bind (fun s2 =>
        PersistentDict.store toyH toyDumps s2 (.str "a") 3 false)))
      = .ok ⟨[("62", [2]), ("61", [3])]⟩ ∧
    _PersistentDictBase.keys [("62", [2]), ("61", [3])] ≠ ["61", "62"] := by
  refine ⟨rfl, rfl, rfl, ?_⟩
  decide

/-- Claim C9 (amended): iteration enumerates the live rows in rowid order,
which is the order of each entry's *most recent* insertion: a mutable
overwrite deletes the old row and appends the new one at the end; under the
write-once discipline rows are only ever appended, so rowid order coincides
with original first-insertion order there; `remove` deletes in place,
preserving the order of the remaining rows; and `keys`/`values`/`items` are
pure, restartable functions of the state enumerating the same rows in the
same order. -/
theorem claim_C9_amended {V : Type} (H : List Nat → List Nat) (dumps : V → List Nat)
    (loads : List Nat → V) (key : PyVal) (kh : String)
    (hkb : keyBuilderCall H key = .ok kh) (value : V) :
    (∀ s : MutState, PersistentDict.store H dumps s key value false
        = .ok ⟨s.rows.filter (fun r => !(r.1 == kh)) ++ [(kh, dumps value)]⟩) ∧
    (∀ s : MutState, _PersistentDictBase.keys
          (s.rows.filter (fun r => !(r.1 == kh)) ++ [(kh, dumps value)])
        = (_PersistentDictBase.keys s.rows).filter (fun x => !(x == kh)) ++ [kh]) ∧
    (∀ s s2 : WOState V, WriteOncePersistentDict.store H dumps s key value false = .ok s2 →
      _PersistentDictBase.keys s2.rows = _PersistentDictBase.keys s.rows ++ [kh]) ∧
    (∀ s s2 : MutState, PersistentDict.remove H s key = .ok s2 →
      _PersistentDictBase.keys s2.rows
        = (_PersistentDictBase.keys s.rows).filter (fun x => !(x == kh))) ∧
    (∀ rows : List (String × List Nat), _PersistentDictBase.items loads rows
        = (_PersistentDictBase.keys rows).zip (_PersistentDictBase.values loads rows)) := by
  refine ⟨fun s => mut_store_eq H dumps s key value kh hkb, fun s => ?_, ?_, ?_, items_eq_zip loads⟩
  · rw [keys_append, keys_filter]
    rfl
  · intro s s2 hst
    cases hlk : sqlLookup s.rows kh with
    | some blob =>
        rw [wo_store_conflict H dumps s key value kh blob hkb hlk] at hst
        exact absurd hst (by simp)
    | none =>
        rw [wo_store_ok H dumps s key value kh hkb hlk] at hst
        simp only [Except.ok.injEq] at hst
        subst hst
        rw [show (⟨s.rows ++ [(kh, dumps value)], s.cache, s.cap⟩ : WOState V).rows
              = s.rows ++ [(kh, dumps value)] from rfl, keys_append]
        rfl
  · intro s s2 hst
    rw [mut_remove_step H s key kh hkb] at hst
    by_cases hlen : ((s.rows.filter (fun r => !(r.1 == kh))).length == s.rows.length) = true
    · rw [if_pos hlen] at hst
      exact absurd hst (by simp)
    · rw [if_neg hlen] at hst
      simp only [Except.ok.injEq] at hst
      subst hst
      exact keys_filter s.rows kh

/-- Witness for the amended claim C9: a mutable overwrite moves the digest
`"61"` to the end of the iteration order. -/
theorem claim_C9_witness :
    PersistentDict.store toyH toyDumps ⟨[("61", [1]), ("62", [2])]⟩ (.str "a") 3 false
      = .ok ⟨[("62", [2]), ("61", [3])]⟩ :=
  (claim_C9_amended toyH toyDumps toyLoads (.str "a") "61" rfl 3).1
    ⟨[("61", [1]), ("62", [2])]⟩

end PytoolsPersistentDict

namespace PytoolsPersistentDict

/-! ## The cache invariant `WOInv` holds in every reachable state:
it holds initially (the cache starts empty) and is preserved by `store`,
`fetch`, `clear` and `clear_in_mem_cache`. -/

theorem sqlLookup_append_left (rows1 rows2 : List (String × List Nat)) (k : String)
    (blob : List Nat) (h : sqlLookup rows1 k = some blob) :
    sqlLookup (rows1 ++ rows2) k = some blob := by
  induction rows1 with
  | nil => simp [sqlLookup] at h
  | cons r rest ih =>
      rw [sqlLookup_cons] at h
      by_cases hr : r.1 = k
      · rw [List.cons_append, sqlLookup_cons, if_pos hr]
        rw [if_pos hr] at h
        exact h
      · rw [List.cons_append, sqlLookup_cons, if_neg hr]
        rw [if_neg hr] at h
        exact ih h

theorem woInv_init {V : Type} (rows : List (String × List Nat)) (cap : Nat) :
    WOInv (⟨rows, [], cap⟩ : WOState V) :=
  fun e he => absurd he (List.not_mem_nil e)

theorem woInv_clear {V : Type} (s : WOState V) :
    WOInv (WriteOncePersistentDict.clear s) :=
  fun e he => absurd he (List.not_mem_nil e)

theorem woInv_clear_in_mem_cache {V : Type} (s : WOState V) :
    WOInv (WriteOncePersistentDict.clear_in_mem_cache s) :=
  fun e he => absurd he (List.not_mem_nil e)

theorem woInv_store {V : Type} (H : List Nat → List Nat) (dumps : V → List Nat)
    (s s2 : WOState V) (key : PyVal) (value : V) (skip : Bool) (hinv : WOInv s)
    (hst : WriteOncePersistentDict.store H dumps s key value skip = .ok s2) :
    WOInv s2 := by
  rw [WriteOncePersistentDict.store] at hst
  cases hkb : keyBuilderCall H key with
  | error e =>
      rw [hkb] at hst
      exact absurd hst (by simp)
  | ok kh =>
      rw [hkb] at hst
      dsimp only at hst
      by_cases hluk : (sqlLookup s.rows kh).isSome = true
      · rw [if_pos hluk] at hst
        cases skip with
        | true =>
            rw [if_pos rfl] at hst
            simp only [Except.ok.injEq] at hst
            subst hst
            exact hinv
        | false =>
            exact absurd hst (by simp)
      · rw [if_neg hluk] at hst
        simp only [Except.ok.injEq] at hst
        subst hst
        intro e he
        cases hs : sqlLookup s.rows e.1 with
        | none =>
            have := hinv e he
            rw [hs] at this
            simp at this
        | some blob =>
            have := sqlLookup_append_left s.rows [(kh, dumps value)] e.1 blob hs
            simp [this]

theorem woInv_fetch {V : Type} (H : List Nat → List Nat) (loads : List Nat → V)
    (s : WOState V) (key : PyVal) (hinv : WOInv s) :
    WOInv (WriteOncePersistentDict.fetch H loads s key).2 := by
  cases hkb : keyBuilderCall H key with
  | error e =>
      rw [wo_fetch_error H loads s key e hkb]
      exact hinv
  | ok kh =>
      rw [wo_fetch_step H loads s key kh hkb]
      cases hc : s.cache.find? (fun e2 => e2.1 == kh) with
      | some e =>
          rw [wo_fetch_cache_hit loads s kh e hc]
          dsimp only
          intro e2 he2
          rcases List.mem_cons.mp he2 with he2 | he2
          · have hek : e.1 = kh := by simpa using List.find?_some hc
            have hmem : e ∈ s.cache := List.mem_of_find?_eq_some hc
            have hsome := hinv e hmem
            rw [hek] at hsome
            rw [he2]
            exact hsome
          · exact hinv e2 (List.mem_of_mem_filter he2)
      | none =>
          cases hlk : sqlLookup s.rows kh with
          | some blob =>
              rw [wo_fetch_table_hit loads s kh blob hc hlk]
              dsimp only
              intro e2 he2
              have he3 := List.mem_of_mem_take he2
              rcases List.mem_cons.mp he3 with he3 | he3
              · rw [he3]
                simp [hlk]
              · exact hinv e2 he3
          | none =>
              rw [wo_fetch_table_miss loads s kh hc hlk]
              exact hinv

end PytoolsPersistentDict
